import Mathlib

/-!
Verification of the reconciliation core of the AcumenEntriesExtractor
pipeline (src/main.py) against its natural-language specification.

The shallow embedding below translates the pure content of the source:

* `to_dataframe` (main.py lines 250-309): normalization of the raw scraped
  table into typed records.  Pandas `to_datetime`/`to_timedelta` with
  `errors='raise'` (the default used by the source) aborts the whole batch
  on the first unparsable cell, which is modelled by `Option`-valued
  parsers threaded with `mapM`.
* `sync_entries` / `update_entries` / `get_month_entries_db`
  (lines 321-533): the reconciliation engine.  DataFrames indexed by the
  `Id` column are modelled as `List Entry` (pandas indexes may carry
  duplicate labels, which lists preserve); `df.drop(labels)` drops every
  row whose label is in `labels`, and `~df.index.duplicated(keep='first')`
  keeps the first row of each label.  The MongoDB store is a `List Entry`;
  `_id` is the DataFrame index value.
* `calculate_hours` / `get_month_data` / `get_biweekly_data`
  (lines 536-652): the aggregator.
* `event_exists` / `process_punch_data` (lines 670-840): the calendar
  projector.

Timestamps are modelled by `DT` (year/month/day/seconds-of-day); the key
function `DT.key` is strictly monotone in chronological order for
in-range field values, mirroring pandas `Timestamp` comparison.
-/

namespace Acumen

/-- A naive date-time: calendar fields plus seconds within the day.
Mirrors a pandas `Timestamp` (the source keeps all timestamps naive and
localizes only when talking to Google Calendar). -/
structure DT where
  year : Nat
  month : Nat
  day : Nat
  sec : Nat
deriving DecidableEq, Repr

/-- Linearization of a `DT` used for chronological comparison.  For
in-range fields (`month ≤ 12`, `day ≤ 31`, `sec < 86400`) it is strictly
monotone in calendar order, so `≤`/`<` on keys mirror pandas `Timestamp`
ordering. -/
def DT.key (t : DT) : Nat :=
  ((t.year * 13 + t.month) * 32 + t.day) * 86400 + t.sec

/-- A normalized punch record: one row of the DataFrame produced by
`to_dataframe` (columns kept at main.py line 306), together with the
`Id` index label.  `amount` is the `Amount` timedelta in seconds. -/
structure Entry where
  id : String
  serviceDate : DT
  startTime : DT
  endTime : DT
  amount : Nat
  serviceCode : String
  status : String
  employeeName : String
deriving DecidableEq, Repr

/-- The `target_date` (a Python `datetime.date`) selecting the month. -/
structure Date where
  year : Nat
  month : Nat
  day : Nat
deriving DecidableEq, Repr

/-! ## Record normalizer (`to_dataframe`, main.py lines 250-309) -/

/-- Month abbreviations accepted by the `%b` directive of the explicit
date format `'%b %d, %Y'` (main.py line 288). -/
def monthAbbrevs : List String :=
  ["Jan", "Feb", "Mar", "Apr", "May", "Jun",
   "Jul", "Aug", "Sep", "Oct", "Nov", "Dec"]

/-- ASCII lower-casing of one character, as strptime's case-insensitive
directive matching does. -/
def lowerChar (c : Char) : Char :=
  if 'A' ≤ c ∧ c ≤ 'Z' then Char.ofNat (c.toNat + 32) else c

/-- Case-insensitive string comparison (strptime matches `%b`/`%p`
values ignoring case). -/
def eqIgnoreCase (a b : String) : Bool :=
  a.data.map lowerChar == b.data.map lowerChar

/-- `%b`: map a month abbreviation to its 1-based month number. -/
def monthNum (s : String) : Option Nat :=
  (monthAbbrevs.findIdx? (fun m => eqIgnoreCase m s)).map (fun i => i + 1)

/-- Days of a Gregorian month, as `strptime`/`pd.to_datetime` validate
(`"Feb 31, 2025"` raises, `"Feb 29, 2024"` is accepted). -/
def daysInMonth (y m : Nat) : Nat :=
  if m == 2 then
    if y % 4 == 0 && (y % 100 != 0 || y % 400 == 0) then 29 else 28
  else if m == 4 || m == 6 || m == 9 || m == 11 then 30
  else 31

/-- Split a character list at every occurrence of `c`, keeping empty
pieces, like Python `str.split(sep)`. -/
def splitAux (c : Char) : List Char → List Char → List (List Char)
  | [], acc => [acc.reverse]
  | x :: xs, acc =>
      if x == c then acc.reverse :: splitAux c xs []
      else splitAux c xs (x :: acc)

/-- `s.split(c)` on a string, via its character list. -/
def splitOnChar (c : Char) (s : String) : List String :=
  (splitAux c s.data []).map (fun l => ⟨l⟩)

/-- Read a non-empty all-digit character list as a decimal number. -/
def digitsToNat : List Char → Nat → Option Nat
  | [], acc => some acc
  | c :: cs, acc =>
      if c.isDigit then digitsToNat cs (acc * 10 + (c.toNat - 48))
      else none

/-- Decimal parser: `none` on the empty token or any non-digit. -/
def decimalToNat (l : List Char) : Option Nat :=
  if l.isEmpty then none else digitsToNat l 0

/-- Strip the trailing comma of the `%d,` token of the date format. -/
def dropComma (t : String) : Option (List Char) :=
  match t.data.reverse with
  | c :: rest => if c == ',' then some rest.reverse else none
  | [] => none

/-- Cell access in a raw row: `row[i]` aligned with the header. -/
def cell (r : List String) (i : Nat) : String :=
  (r.get? i).getD ""

/-- Parser for the explicit date format `'%b %d, %Y'`, e.g.
`"Jul 28, 2025"` (main.py line 288).  Returns `(year, month, day)`;
`none` models the `ValueError` pandas raises on a non-matching cell. -/
def parseServiceDate (s : String) : Option (Nat × Nat × Nat) :=
  match splitOnChar ' ' s with
  | [mon, dayComma, yearStr] => do
      let m ← monthNum mon
      let dl ← dropComma dayComma
      let d ← decimalToNat dl
      let y ← decimalToNat yearStr.data
      guard (1 ≤ d ∧ d ≤ daysInMonth y m)
      pure (y, m, d)
  | _ => none

/-- Parser for the explicit time format `'%I:%M %p'`, e.g. `"03:38 PM"`
(main.py line 289).  Returns seconds within the day. -/
def parseClock (s : String) : Option Nat :=
  match splitOnChar ' ' s with
  | [hm, ap] =>
      match splitOnChar ':' hm with
      | [hs, ms] => do
          let h ← decimalToNat hs.data
          let m ← decimalToNat ms.data
          guard (1 ≤ h ∧ h ≤ 12 ∧ m ≤ 59)
          let h24 ←
            if eqIgnoreCase ap "AM" then pure (h % 12)
            else if eqIgnoreCase ap "PM" then pure (h % 12 + 12)
            else none
          pure (h24 * 3600 + m * 60)
      | _ => none
  | _ => none

/-- The `Amount` transformation of main.py lines 277-284: take
`split(':')[1]` as hours and `split(':')[2]` as minutes, rebuild
`'HH:MM:00'` and convert with `pd.to_timedelta`.  An empty cell yields
the string `'None:None:00'` and a short or non-numeric cell an
`IndexError`/`ValueError`; both abort the batch, modelled by `none`.
Result in seconds. -/
def parseAmount (x : String) : Option Nat :=
  if x == "" then none
  else
    match splitOnChar ':' x with
    | _ :: hs :: ms :: _ => do
        let h ← decimalToNat hs.data
        let m ← decimalToNat ms.data
        pure (h * 3600 + m * 60)
    | _ => none

/-- Positions of the required columns in the raw header row.  A missing
column raises a pandas `KeyError` for the batch, modelled by `none`. -/
structure Cols where
  idIdx : Nat
  statusIdx : Nat
  sdIdx : Nat
  startIdx : Nat
  endIdx : Nat
  amountIdx : Nat
  codeIdx : Nat
deriving DecidableEq, Repr

/-- Locate all columns used by `to_dataframe` in the header row. -/
def getCols (header : List String) : Option Cols := do
  let idI ← header.findIdx? (fun c => c == "Id")
  let stI ← header.findIdx? (fun c => c == "Status")
  let sdI ← header.findIdx? (fun c => c == "Service Date")
  let startI ← header.findIdx? (fun c => c == "Start Time")
  let endI ← header.findIdx? (fun c => c == "End Time")
  let amI ← header.findIdx? (fun c => c == "Amount")
  let scI ← header.findIdx? (fun c => c == "Service Code")
  pure ⟨idI, stI, sdI, startI, endI, amI, scI⟩

/-- Normalization of one raw row (main.py lines 277-303): `Start Time` /
`End Time` are parsed from `Service Date + ' ' + <time>` with the
combined format `'%b %d, %Y %I:%M %p'`, `Service Date` is normalized to
midnight, `Amount` is rebuilt as described in `parseAmount`. -/
def parseRow (cs : Cols) (emp : String) (r : List String) : Option Entry := do
  let (y, m, d) ← parseServiceDate (cell r cs.sdIdx)
  let sSec ← parseClock (cell r cs.startIdx)
  let eSec ← parseClock (cell r cs.endIdx)
  let amt ← parseAmount (cell r cs.amountIdx)
  pure
    { id := cell r cs.idIdx
      serviceDate := ⟨y, m, d, 0⟩
      startTime := ⟨y, m, d, sSec⟩
      endTime := ⟨y, m, d, eSec⟩
      amount := amt
      serviceCode := cell r cs.codeIdx
      status := cell r cs.statusIdx
      employeeName := emp }

/-- `to_dataframe` (main.py lines 250-309).  After `set_index('Id')`,
line 268 runs `df.drop(df[df['Status'] == 'Open'].index)`: a drop BY
INDEX LABEL, so every row sharing its `Id` with some `Open`-status row
is removed — not only the `Open` rows themselves.  Every remaining row
is then converted.  Pandas `pd.to_datetime`/`pd.to_timedelta` run
column-wise with the default `errors='raise'`, so a single unparsable
cell raises and no DataFrame is produced at all; `mapM` over `Option`
models exactly that batch-fatal behavior. -/
def to_dataframe (header : List String) (data : List (List String))
    (emp : String) : Option (List Entry) := do
  let cs ← getCols header
  (data.filter (fun r =>
      !(data.any (fun r2 => cell r2 cs.idIdx == cell r cs.idIdx &&
          cell r2 cs.statusIdx == "Open")))).mapM (parseRow cs emp)

/-! ## Period calculator (`get_month_data` / `get_biweekly_data`,
main.py lines 548-595) -/

/-- `target_date.replace(day=1)` normalized: first instant of the target
month (main.py lines 343, 559, 578). -/
def monthStart (td : Date) : DT := ⟨td.year, td.month, 1, 0⟩

/-- First instant of the month after the target month: the source
computes it both with an explicit December test (main.py lines 344-347)
and with `pd.offsets.MonthBegin(1)` (lines 560, 579); both agree. -/
def nextMonthStart (td : Date) : DT :=
  if td.month == 12 then ⟨td.year + 1, 1, 1, 0⟩ else ⟨td.year, td.month + 1, 1, 0⟩

/-- `get_month_data` (main.py lines 548-563): keep rows with
`month_start <= 'Service Date' < next_month_start`. -/
def get_month_data (df : List Entry) (td : Date) : List Entry :=
  df.filter (fun e =>
    decide ((monthStart td).key ≤ e.serviceDate.key ∧
            e.serviceDate.key < (nextMonthStart td).key))

/-- `get_biweekly_data` (main.py lines 566-595): restrict to the month,
then split at the day-16 boundary: first half `'Service Date' <= day 15`,
second half `'Service Date' >= day 16`. -/
def get_biweekly_data (df : List Entry) (td : Date) :
    List Entry × List Entry :=
  let firstEnd : DT := ⟨td.year, td.month, 15, 0⟩
  let secondStart : DT := ⟨td.year, td.month, 16, 0⟩
  let month_df := get_month_data df td
  (month_df.filter (fun e => decide (e.serviceDate.key ≤ firstEnd.key)),
   month_df.filter (fun e => decide (secondStart.key ≤ e.serviceDate.key)))

/-! ## Aggregator (`format_hhmmss` / `calculate_hours`,
main.py lines 536-652) -/

/-- Python `f"{n:02d}"`: decimal with at least two digits. -/
def pad2 (n : Nat) : String :=
  if n < 10 then "0" ++ toString n else toString n

/-- `format_hhmmss` (main.py lines 536-545) on a non-negative duration in
seconds. -/
def format_hhmmss (totalSeconds : Nat) : String :=
  pad2 (totalSeconds / 3600) ++ ":" ++ pad2 (totalSeconds % 3600 / 60) ++ ":" ++
    pad2 (totalSeconds % 60)

/-- Sum of the `Amount` column of the rows with the given service code;
pandas sums an empty timedelta selection to `Timedelta(0)`. -/
def sumCode (l : List Entry) (code : String) : Nat :=
  (l.filter (fun e => e.serviceCode == code)).foldl (fun a e => a + e.amount) 0

/-- Sum of the whole `Amount` column. -/
def sumAll (l : List Entry) : Nat :=
  l.foldl (fun a e => a + e.amount) 0

/-- One formatted totals dictionary of `calculate_hours`: keys `'331'`,
`'320'`, `'310'`, `'Total Hours'`. -/
structure HoursDict where
  c331 : String
  c320 : String
  c310 : String
  total : String
deriving DecidableEq, Repr

/-- Format the four sums of one period (main.py lines 617-650). -/
def hoursOf (l : List Entry) : HoursDict :=
  { c331 := format_hhmmss (sumCode l "331")
    c320 := format_hhmmss (sumCode l "320")
    c310 := format_hhmmss (sumCode l "310")
    total := format_hhmmss (sumAll l) }

/-- `calculate_hours` (main.py lines 598-652): formatted totals for the
first biweekly period, the second biweekly period, and the whole month. -/
def calculate_hours (df : List Entry) (td : Date) :
    HoursDict × HoursDict × HoursDict :=
  let dfm := get_month_data df td
  let halves := get_biweekly_data dfm td
  (hoursOf halves.1, hoursOf halves.2, hoursOf dfm)

/-! ## Reconciliation engine (`get_month_entries_db` / `update_entries` /
`sync_entries`, main.py lines 321-533) -/

/-- The statuses discarded by reconciliation (main.py lines 504, 526). -/
def badStatus (s : String) : Bool :=
  s == "Open" || s == "Rejected" || s == "Unvalidated"

/-- The month filter applied to the fresh batch (main.py lines 490-493):
`'Service Date'.dt.year == target.year and .dt.month == target.month`. -/
def monthEq (td : Date) (l : List Entry) : List Entry :=
  l.filter (fun e => e.serviceDate.year == td.year && e.serviceDate.month == td.month)

/-- `df.drop(ids, errors='ignore')`: remove every row whose index label
is among `ids` (main.py lines 517-518). -/
def dropIds (ids : List String) (l : List Entry) : List Entry :=
  l.filter (fun e => !(ids.contains e.id))

/-- `df.drop(df[bad-status mask].index)` (main.py lines 504-505 and
526-527): pandas drops BY LABEL, so every row sharing an index label
with some bad-status row is removed, not only the bad rows themselves. -/
def dropBadLabels (l : List Entry) : List Entry :=
  l.filter (fun e => !(l.any (fun x => x.id == e.id && badStatus x.status)))

/-- `~df.index.duplicated(keep='first')` (main.py line 530): keep a row
exactly when it is the first row carrying its index label.  `seen` holds
the labels already emitted. -/
def dedupeAux (seen : List String) : List Entry → List Entry
  | [] => []
  | e :: rest =>
      if seen.contains e.id then dedupeAux seen rest
      else e :: dedupeAux (e.id :: seen) rest

/-- `get_month_entries_db` (main.py lines 321-390), success path: the
documents of the store whose `'Service Date'` lies in
`[first_day, last_day)` of the target month. -/
def get_month_entries_db (store : List Entry) (td : Date) : List Entry :=
  store.filter (fun e =>
    decide ((monthStart td).key ≤ e.serviceDate.key ∧
            e.serviceDate.key < (nextMonthStart td).key))

/-- `update_entries` (main.py lines 393-461), success path: first delete
the rejected ids from the store (line 420), then insert exactly the rows
of `df` whose ids do not already exist in the store after that deletion
(lines 429-453).  Existing documents are never modified.  Returns the
new store contents and the list of inserted records. -/
def update_entries (store : List Entry) (df : List Entry)
    (rejected : List String) : List Entry × List Entry :=
  let store1 := store.filter (fun e => !(rejected.contains e.id))
  let newEntries := df.filter (fun e => !(store1.any (fun s => s.id == e.id)))
  (store1 ++ newEntries, newEntries)

/-- Result of the pure reconciliation core: the merged record set and the
list of rejected index labels (in fresh-batch order). -/
structure ReconOut where
  result : List Entry
  rejected : List String
deriving DecidableEq, Repr

/-- The rejected index labels of main.py lines 510-513: labels of fresh
rows with status `'Rejected'` that also occur in the stored month set,
in fresh-batch order (with multiplicity, as `list(...index)` keeps it). -/
def rejectedIds (curF old : List Entry) : List String :=
  (curF.filter (fun e =>
    e.status == "Rejected" && old.any (fun o => o.id == e.id))).map
    (fun e => e.id)

/-- The pure core of `sync_entries` (main.py lines 498-530), taking the
already month-filtered fresh batch `curF` and the stored month set `old`:
1. empty fresh → return `old` (line 498);
2. empty stored → drop the bad-status labels from `curF` (lines 501-507);
3. otherwise: collect the labels of fresh rows with status `'Rejected'`
   that also occur in `old` (lines 510-513), drop them from both sides
   (lines 516-518), concatenate fresh-then-stored (line 523), drop the
   bad-status labels (lines 526-527), and keep the first row of each
   label (line 530). -/
def reconcile (curF old : List Entry) : ReconOut :=
  if curF.isEmpty then ⟨old, []⟩
  else if old.isEmpty then ⟨dropBadLabels curF, []⟩
  else
    let rejected := rejectedIds curF old
    let cur' := dropIds rejected curF
    let old' := dropIds rejected old
    ⟨dedupeAux [] (dropBadLabels (cur' ++ old')), rejected⟩

/-- The observable effects of one `sync_entries` run.  `storeDeletes`
records the ids submitted to the store's `delete_many`
(main.py line 420; the empty list means the call never happens, guarded
by `if rejected_ids:` at line 419), `calendarDeletes` the ids for which
a calendar deletion is actually attempted, and `inserted` the records
handed to `insert_many`. -/
structure SyncEffects where
  result : List Entry
  store : List Entry
  storeDeletes : List String
  calendarDeletes : List String
  inserted : List Entry
deriving DecidableEq, Repr

/-- `sync_entries` (main.py lines 464-533), success path, with the store
passed explicitly.  `calendarDeletes` records the ids for which
`delete_calendar_event` actually attempts a Google Calendar deletion:
the function is called once per rejected id (lines 519-520) but returns
without any attempt when the id is falsy (`if entry_id:` at line 753) —
for string ids, when the id is the empty string.  When the fresh batch
is empty the function returns before touching the store (line 499); when
the stored month set is empty it persists the cleaned fresh batch with no
rejected ids (line 506); otherwise it persists the merged set and the
rejected ids (line 532). -/
def sync_entries (store : List Entry) (cur : List Entry) (td : Date) :
    SyncEffects :=
  let curF := monthEq td cur
  let old := get_month_entries_db store td
  if curF.isEmpty then ⟨old, store, [], [], []⟩
  else
    let core := reconcile curF old
    let upd := update_entries store core.result core.rejected
    ⟨core.result, upd.1, core.rejected,
      core.rejected.filter (fun i => i != ""), upd.2⟩

/-! ## Store failure semantics (claim C7)

`get_mongodb_collection` (main.py lines 312-318) creates the client and
pings it OUTSIDE any `try`, both in `get_month_entries_db` (line 339)
and in `update_entries` (line 413), so a connectivity/auth failure there
propagates and aborts the run.  Every other store operation runs inside
`try ... except Exception` blocks that print and swallow the error:
a failed month query returns an empty DataFrame (lines 386-388), a
failed delete or insert leaves `update_entries` returning normally
(lines 458-459).  `StoreFaults` injects these failures; `Except.error`
models an uncaught exception reaching the caller. -/
structure StoreFaults where
  pingFails : Bool
  findFails : Bool
  deleteFails : Bool
  insertFails : Bool
deriving DecidableEq, Repr

/-- `get_month_entries_db` with fault injection: the ping failure is
uncaught (line 339 is outside the `try`), the query failure is caught at
lines 386-388 and turned into an empty DataFrame. -/
def get_month_entries_db_f (b : StoreFaults) (store : List Entry)
    (td : Date) : Except Unit (List Entry) :=
  if b.pingFails then .error ()
  else if b.findFails then .ok []
  else .ok (get_month_entries_db store td)

/-- `update_entries` with fault injection: the ping failure is uncaught
(line 413 is outside the `try`); a delete failure is caught before any
mutation, an insert failure is caught after the delete already ran
(the `except` at lines 458-459 swallows both). -/
def update_entries_f (b : StoreFaults) (store : List Entry)
    (df : List Entry) (rejected : List String) : Except Unit (List Entry) :=
  if b.pingFails then .error ()
  else if b.deleteFails then .ok store
  else
    let store1 := store.filter (fun e => !(rejected.contains e.id))
    if b.insertFails then .ok store1
    else .ok (store1 ++ df.filter (fun e => !(store1.any (fun s => s.id == e.id))))

/-- `sync_entries` with store fault injection; returns the reconciled
set and the final store when the run completes, `Except.error` when an
uncaught store exception aborts it. -/
def sync_entries_f (b : StoreFaults) (store : List Entry)
    (cur : List Entry) (td : Date) : Except Unit (List Entry × List Entry) := do
  let curF := monthEq td cur
  let old ← get_month_entries_db_f b store td
  if curF.isEmpty then .ok (old, store)
  else
    let core := reconcile curF old
    let store' ← update_entries_f b store core.result core.rejected
    .ok (core.result, store')

/-! ## Calendar projector (`event_exists` / `process_punch_data`,
main.py lines 670-840) -/

/-- An event on the external Google calendar, reduced to its interval
(summary and color do not matter to the claims). -/
structure CalEvent where
  start : DT
  stop : DT
deriving DecidableEq, Repr

/-- The `events().list(timeMin=start, timeMax=end, singleEvents=True)`
call of `event_exists` (main.py lines 689-695).  The Google Calendar API
documents `timeMin` as an exclusive lower bound on an event's END time
and `timeMax` as an exclusive upper bound on an event's START time, so
the call returns every event whose interval overlaps the open range —
not only events exactly equal to it.  (This is the one collaborator
whose semantics is not in src/; it is modelled from the documented
events.list contract.  The localization to America/Los_Angeles at lines
684-686 is order-preserving and is elided.) -/
def listEvents (cal : List CalEvent) (timeMin timeMax : DT) : List CalEvent :=
  cal.filter (fun ev =>
    decide (ev.start.key < timeMax.key ∧ timeMin.key < ev.stop.key))

/-- `event_exists` (main.py lines 670-698): true when the list call
returns at least one event. -/
def event_exists (cal : List CalEvent) (startTime endTime : DT) : Bool :=
  (listEvents cal startTime endTime).length > 0

/-- `process_punch_data` (main.py lines 805-840): for every record of the
target month, skip when `event_exists`, otherwise create the event.
Created events are visible to the later existence checks of the same run
(each check queries the live calendar).  Returns the final calendar and
the list of events created in this run. -/
def process_punch_data (cal : List CalEvent) (df : List Entry) (td : Date) :
    List CalEvent × List CalEvent :=
  (get_month_data df td).foldl
    (fun acc e =>
      if event_exists acc.1 e.startTime e.endTime then acc
      else (acc.1 ++ [⟨e.startTime, e.endTime⟩], acc.2 ++ [⟨e.startTime, e.endTime⟩]))
    (cal, [])

end Acumen

namespace Acumen

/-! ## Concrete fixtures

Named inputs used by the witness and counterexample theorems below: a
June-2025 target date and a builder for normalized records of that
month (the shape `to_dataframe` produces: service date at midnight,
start/end on the same day). -/

/-- A target date in June 2025. -/
def td2506 : Date := ⟨2025, 6, 15⟩

/-- A normalized June-2025 record with the given label, status, day of
month, amount (seconds) and service code. -/
def mkE (i : String) (st : String) (d : Nat) (amt : Nat) (code : String) :
    Entry :=
  { id := i
    serviceDate := ⟨2025, 6, d, 0⟩
    startTime := ⟨2025, 6, d, 3600⟩
    endTime := ⟨2025, 6, d, 7200⟩
    amount := amt
    serviceCode := code
    status := st
    employeeName := "Jesus" }

/-- A normalized July-2025 record (outside the June target month). -/
def mkEJul (i : String) (st : String) (d : Nat) (amt : Nat) (code : String) :
    Entry :=
  { id := i
    serviceDate := ⟨2025, 7, d, 0⟩
    startTime := ⟨2025, 7, d, 3600⟩
    endTime := ⟨2025, 7, d, 7200⟩
    amount := amt
    serviceCode := code
    status := st
    employeeName := "Jesus" }

/-- The raw header row scraped from the punches table. -/
def rawHeader : List String :=
  ["Id", "Status", "Service Date", "Start Time", "End Time", "Amount",
   "Service Code"]

/-- A well-formed raw row under the fixed date/time formats. -/
def goodRow : List String :=
  ["101", "Approved", "Jul 28, 2025", "03:00 PM", "05:00 PM", "0:02:00", "331"]

/-- A raw row whose service date does not match the `'%b %d, %Y'`
format. -/
def badRow : List String :=
  ["102", "Approved", "2025-07-28", "03:00 PM", "05:00 PM", "0:02:00", "331"]

/-! ## Basic lemmas about the DataFrame primitives -/

theorem mem_dropIds {ids : List String} {l : List Entry} {x : Entry} :
    x ∈ dropIds ids l ↔ x ∈ l ∧ x.id ∉ ids := by
  simp [dropIds, List.mem_filter, List.elem_iff]

theorem mem_dropBadLabels {l : List Entry} {x : Entry} :
    x ∈ dropBadLabels l ↔
      x ∈ l ∧ ∀ y ∈ l, y.id = x.id → badStatus y.status = false := by
  constructor
  · intro h
    have h' := List.mem_filter.1 h
    refine ⟨h'.1, fun y hy hid => ?_⟩
    have hna : l.any (fun z => z.id == x.id && badStatus z.status) = false := by
      simpa using h'.2
    have hy' := List.any_eq_false.1 hna y hy
    simp only [hid, beq_self_eq_true, Bool.true_and] at hy'
    simpa using hy'
  · rintro ⟨hx, h⟩
    refine List.mem_filter.2 ⟨hx, ?_⟩
    simp only [Bool.not_eq_true', List.any_eq_false]
    intro y hy
    by_cases hid : y.id = x.id
    · simp [hid, h y hy hid]
    · simp [hid]

theorem valid_of_mem_dropBadLabels {l : List Entry} {x : Entry}
    (h : x ∈ dropBadLabels l) : badStatus x.status = false :=
  (mem_dropBadLabels.1 h).2 x (mem_dropBadLabels.1 h).1 rfl

theorem mem_dedupeAux {seen : List String} {l : List Entry} {x : Entry}
    (h : x ∈ dedupeAux seen l) : x ∈ l := by
  induction l generalizing seen with
  | nil => simp [dedupeAux] at h
  | cons e rest ih =>
      simp only [dedupeAux] at h
      by_cases hs : seen.contains e.id
      · simp only [hs, if_true] at h
        exact List.mem_cons_of_mem _ (ih h)
      · simp only [hs, if_false] at h
        rcases List.mem_cons.1 h with h' | h'
        · exact h' ▸ List.mem_cons_self _ _
        · exact List.mem_cons_of_mem _ (ih h')

theorem dedupeAux_filter (i : String) :
    ∀ (l : List Entry) (seen : List String),
      (dedupeAux seen l).filter (fun a => a.id == i) =
        if i ∈ seen then [] else (l.filter (fun a => a.id == i)).take 1 := by
  intro l
  induction l with
  | nil => intro seen; simp [dedupeAux]
  | cons e rest ih =>
      intro seen
      by_cases hei : e.id = i
      · subst hei
        by_cases hs : e.id ∈ seen
        · simp [dedupeAux, hs, ih, List.filter]
        · simp [dedupeAux, hs, ih, List.filter]
      · have hne : (e.id == i) = false := by simpa using hei
        have hie : ¬ i = e.id := fun h => hei h.symm
        by_cases hs : e.id ∈ seen
        · simp only [dedupeAux, List.elem_iff, hs, if_true, ih]
          by_cases hsi : i ∈ seen
          · simp [hsi, List.filter, hne]
          · simp [hsi, List.filter, hne]
        · simp only [dedupeAux, List.elem_iff, hs, if_false, List.filter, hne, ih,
            List.mem_cons]
          by_cases hsi : i ∈ seen
          · simp [hsi, hie]
          · simp [hsi, hie]

theorem mem_dedupe_iff {l : List Entry} {x : Entry} :
    x ∈ dedupeAux [] l ↔ (l.filter (fun a => a.id == x.id)).head? = some x := by
  constructor
  · intro h
    have hx : x ∈ (dedupeAux [] l).filter (fun a => a.id == x.id) :=
      List.mem_filter.2 ⟨h, by simp⟩
    rw [dedupeAux_filter] at hx
    simp only [List.not_mem_nil, if_false] at hx
    rcases hf : (l.filter (fun a => a.id == x.id)) with _ | ⟨a, t⟩
    · rw [hf] at hx; simp at hx
    · rw [hf] at hx
      simp only [List.take, List.mem_singleton] at hx
      rw [hf]
      simp [hx]
  · intro h
    rcases hf : (l.filter (fun a => a.id == x.id)) with _ | ⟨a, t⟩
    · rw [hf] at h; simp at h
    · rw [hf] at h
      simp only [List.head?] at h
      have hax : a = x := by simpa using h
      subst hax
      have : a ∈ (dedupeAux [] l).filter (fun b => b.id == a.id) := by
        rw [dedupeAux_filter]
        simp [hf]
      exact (List.mem_filter.1 this).1

theorem dedupeAux_ids_nodup :
    ∀ (l : List Entry) (seen : List String),
      ((dedupeAux seen l).map (fun e => e.id)).Nodup ∧
        ∀ e ∈ dedupeAux seen l, e.id ∉ seen := by
  intro l
  induction l with
  | nil => intro seen; simp [dedupeAux]
  | cons e rest ih =>
      intro seen
      by_cases hs : e.id ∈ seen
      · simpa [dedupeAux, List.elem_iff, hs] using ih seen
      · have ih' := ih (e.id :: seen)
        simp only [dedupeAux, List.elem_iff, hs, if_false, List.map_cons,
          List.nodup_cons, List.mem_cons]
        refine ⟨⟨?_, ih'.1⟩, ?_⟩
        · intro hmem
          rcases List.mem_map.1 hmem with ⟨a, ha, hid⟩
          exact (ih'.2 a ha) (by simp [hid])
        · intro a ha
          rcases ha with h' | h'
          · subst h'; exact hs
          · intro hcon
            exact (ih'.2 a h') (by simp [hcon])

/-- The index labels (ids) of a record list. -/
def entryIds (l : List Entry) : List String := l.map (fun e => e.id)

theorem mem_entryIds {l : List Entry} {i : String} :
    i ∈ entryIds l ↔ ∃ e ∈ l, e.id = i := by
  simp [entryIds]

theorem eq_of_nodup_ids {l : List Entry} (h : (entryIds l).Nodup)
    {x y : Entry} (hx : x ∈ l) (hy : y ∈ l) (hid : x.id = y.id) : x = y :=
  List.inj_on_of_nodup_map h hx hy hid

theorem head?_eq_of_mem_all {α : Type} {l : List α} {e : α}
    (he : e ∈ l) (hall : ∀ x ∈ l, x = e) : l.head? = some e := by
  cases l with
  | nil => cases he
  | cons a t => simpa [List.head?] using hall a (List.mem_cons_self a t)

theorem dropIds_nil (l : List Entry) : dropIds [] l = l := by
  simp [dropIds]

theorem reconcile_of_empty_fresh {curF old : List Entry} (h : curF = []) :
    reconcile curF old = ⟨old, []⟩ := by
  simp [reconcile, h]

theorem reconcile_of_empty_old {curF old : List Entry} (h1 : curF ≠ [])
    (h2 : old = []) : reconcile curF old = ⟨dropBadLabels curF, []⟩ := by
  simp [reconcile, h1, h2]

theorem reconcile_main {curF old : List Entry} (h1 : curF ≠ []) (h2 : old ≠ []) :
    reconcile curF old =
      ⟨dedupeAux [] (dropBadLabels
          (dropIds (rejectedIds curF old) curF ++
           dropIds (rejectedIds curF old) old)),
        rejectedIds curF old⟩ := by
  simp [reconcile, h1, h2]

theorem mem_rejectedIds {curF old : List Entry} {i : String} :
    i ∈ rejectedIds curF old ↔
      ∃ e ∈ curF, e.id = i ∧ e.status = "Rejected" ∧ ∃ o ∈ old, o.id = i := by
  simp only [rejectedIds, List.mem_map, List.mem_filter, Bool.and_eq_true,
    beq_iff_eq, List.any_eq_true]
  constructor
  · rintro ⟨e, ⟨he, hst, o, ho, hid⟩, rfl⟩
    exact ⟨e, he, rfl, hst, o, ho, hid⟩
  · rintro ⟨e, he, rfl, hst, o, ho, hid⟩
    exact ⟨e, ⟨he, hst, o, ho, hid⟩, rfl⟩

theorem filter_id_eq_singleton {l : List Entry} (h : (entryIds l).Nodup)
    {e : Entry} (he : e ∈ l) : l.filter (fun a => a.id == e.id) = [e] := by
  induction l with
  | nil => cases he
  | cons a t ih =>
      simp only [entryIds, List.map_cons, List.nodup_cons] at h
      rcases List.mem_cons.1 he with rfl | he'
      · have ht : t.filter (fun a => a.id == e.id) = [] := by
          refine List.eq_nil_iff_forall_not_mem.2 fun x hx => ?_
          have hx' := List.mem_filter.1 hx
          exact h.1 (List.mem_map.2 ⟨x, hx'.1, by simpa using hx'.2⟩)
        simp [List.filter, ht]
      · have hne : (a.id == e.id) = false := by
          refine beq_eq_false_iff_ne.2 fun hcon => ?_
          exact h.1 (List.mem_map.2 ⟨e, he', hcon.symm⟩)
        simpa [List.filter, hne] using ih h.2 he'

/-- Every record of the reconciled set carries a valid status, as long as
the stored set does (the first branch returns `old` unchanged; the other
branches go through `dropBadLabels`). -/
theorem reconcile_result_valid {curF old : List Entry}
    (hS : ∀ s ∈ old, badStatus s.status = false) :
    ∀ x ∈ (reconcile curF old).result, badStatus x.status = false := by
  intro x hx
  by_cases h1 : curF = []
  · rw [reconcile_of_empty_fresh h1] at hx
    exact hS x hx
  · by_cases h2 : old = []
    · rw [reconcile_of_empty_old h1 h2] at hx
      exact valid_of_mem_dropBadLabels hx
    · rw [reconcile_main h1 h2] at hx
      exact valid_of_mem_dropBadLabels (mem_dedupeAux hx)

/-- When the fresh batch is nonempty and has pairwise-distinct labels,
the reconciled set has pairwise-distinct labels. -/
theorem reconcile_result_nodup {curF old : List Entry}
    (hF : (entryIds curF).Nodup) (h1 : curF ≠ []) :
    (entryIds (reconcile curF old).result).Nodup := by
  by_cases h2 : old = []
  · rw [reconcile_of_empty_old h1 h2]
    have hsub : List.Sublist (entryIds (dropBadLabels curF)) (entryIds curF) := by
      simp only [entryIds, dropBadLabels]
      exact List.Sublist.map (fun e => e.id) (List.filter_sublist curF)
    exact hsub.nodup hF
  · rw [reconcile_main h1 h2]
    exact (dedupeAux_ids_nodup _ []).1

/-- A fresh record with valid status always survives reconciliation,
provided the fresh labels are pairwise distinct and the stored records
all carry valid statuses ("fresh wins" half of the merge policy). -/
theorem fresh_valid_mem_reconcile {curF old : List Entry}
    (hF : (entryIds curF).Nodup)
    {e : Entry} (he : e ∈ curF) (hv : badStatus e.status = false)
    (hS : ∀ s ∈ old, s.id = e.id → badStatus s.status = false) :
    e ∈ (reconcile curF old).result := by
  have h1 : curF ≠ [] := fun h => by simp [h] at he
  by_cases h2 : old = []
  · rw [reconcile_of_empty_old h1 h2]
    refine mem_dropBadLabels.2 ⟨he, fun y hy hid => ?_⟩
    have hye : y = e := eq_of_nodup_ids hF hy he hid
    simpa [hye] using hv
  · rw [reconcile_main h1 h2]
    set R := rejectedIds curF old with hR
    set A := dropIds R curF with hA
    set B := dropIds R old with hB
    have hnr : e.id ∉ R := by
      intro hcon
      rcases mem_rejectedIds.1 hcon with ⟨f, hf, hfid, hfst, _⟩
      have hfe : f = e := eq_of_nodup_ids hF hf he hfid
      rw [hfe] at hfst
      simp [badStatus, hfst] at hv
    have hecur : e ∈ A := mem_dropIds.2 ⟨he, hnr⟩
    have hMsame : ∀ y ∈ A ++ B, y.id = e.id → badStatus y.status = false := by
      intro y hy hid
      rcases List.mem_append.1 hy with hy' | hy'
      · have hye : y = e := eq_of_nodup_ids hF (mem_dropIds.1 hy').1 he hid
        simpa [hye] using hv
      · exact hS y (mem_dropIds.1 hy').1 hid
    have heC : e ∈ dropBadLabels (A ++ B) :=
      mem_dropBadLabels.2 ⟨List.mem_append.2 (Or.inl hecur), hMsame⟩
    refine mem_dedupe_iff.2 ?_
    set p := fun x : Entry =>
      !((A ++ B).any (fun z => z.id == x.id && badStatus z.status)) with hp
    have hsplit : dropBadLabels (A ++ B) = A.filter p ++ B.filter p := by
      rw [dropBadLabels, List.filter_append]
    rw [hsplit, List.filter_append, List.head?_append]
    have hmem : e ∈ (A.filter p).filter (fun a => a.id == e.id) := by
      refine List.mem_filter.2 ⟨?_, by simp⟩
      rw [dropBadLabels] at heC
      exact List.mem_filter.2 ⟨hecur, (List.mem_filter.1 heC).2⟩
    have hall : ∀ x ∈ (A.filter p).filter (fun a => a.id == e.id), x = e := by
      intro x hx
      have hx1 := List.mem_filter.1 hx
      have hx2 := List.mem_filter.1 hx1.1
      have hxid : x.id = e.id := by simpa using hx1.2
      exact eq_of_nodup_ids hF (mem_dropIds.1 hx2.1).1 he hxid
    rw [head?_eq_of_mem_all hmem hall]
    rfl

theorem any_bad_eq_false {M : List Entry} {i : String}
    (h : ∀ y ∈ M, y.id = i → badStatus y.status = false) :
    (M.any (fun z => z.id == i && badStatus z.status)) = false := by
  rw [List.any_eq_false]
  intro z hz
  by_cases hzi : z.id = i
  · simp [hzi, h z hz hzi]
  · simp [hzi]

/-- A reconciled record whose label occurs in the fresh batch IS the
fresh record: fresh wins over stored, uniquely, provided fresh labels
are distinct and stored statuses are valid. -/
theorem reconcile_mem_fresh_eq {curF old : List Entry}
    (hF : (entryIds curF).Nodup)
    {x e : Entry} (hx : x ∈ (reconcile curF old).result)
    (he : e ∈ curF) (hid : e.id = x.id) : x = e := by
  have h1 : curF ≠ [] := fun h => by simp [h] at he
  by_cases h2 : old = []
  · rw [reconcile_of_empty_old h1 h2] at hx
    exact eq_of_nodup_ids hF (mem_dropBadLabels.1 hx).1 he hid.symm
  · rw [reconcile_main h1 h2] at hx
    set R := rejectedIds curF old with hR
    set A := dropIds R curF with hA
    set B := dropIds R old with hB
    have hxC : x ∈ dropBadLabels (A ++ B) := mem_dedupeAux hx
    have hxC' := mem_dropBadLabels.1 hxC
    have hxR : x.id ∉ R := by
      rcases List.mem_append.1 hxC'.1 with h' | h'
      · exact (mem_dropIds.1 h').2
      · exact (mem_dropIds.1 h').2
    have heA : e ∈ A := mem_dropIds.2 ⟨he, by rw [hid]; exact hxR⟩
    set p := fun y : Entry =>
      !((A ++ B).any (fun z => z.id == y.id && badStatus z.status)) with hp
    have hpe : p e = true := by
      have hany : ((A ++ B).any
          (fun z => z.id == e.id && badStatus z.status)) = false := by
        refine any_bad_eq_false fun y hy hyid => ?_
        exact hxC'.2 y hy (by rw [hyid, hid])
      show (!((A ++ B).any (fun z => z.id == e.id && badStatus z.status))) = true
      rw [hany]
      rfl
    have hsplit : dropBadLabels (A ++ B) = A.filter p ++ B.filter p := by
      rw [dropBadLabels, List.filter_append]
    have hhx := mem_dedupe_iff.1 hx
    rw [hsplit, List.filter_append, List.head?_append] at hhx
    have hmem : e ∈ (A.filter p).filter (fun a => a.id == x.id) := by
      refine List.mem_filter.2 ⟨List.mem_filter.2 ⟨heA, hpe⟩, by simp [hid]⟩
    have hall : ∀ y ∈ (A.filter p).filter (fun a => a.id == x.id), y = e := by
      intro y hy
      have hy1 := List.mem_filter.1 hy
      have hy2 := List.mem_filter.1 hy1.1
      have hyid : y.id = x.id := by simpa using hy1.2
      exact eq_of_nodup_ids hF (mem_dropIds.1 hy2.1).1 he (by rw [hyid, ← hid])
    rw [head?_eq_of_mem_all hmem hall] at hhx
    have : some e = some x := hhx
    exact (Option.some.inj this).symm

theorem reconcile_idempotent_aux {curF old : List Entry}
    (hF : (entryIds curF).Nodup)
    (hS : ∀ s ∈ old, badStatus s.status = false) :
    ((reconcile curF (reconcile curF old).result).result).toFinset =
      ((reconcile curF old).result).toFinset := by
  set T := (reconcile curF old).result with hT
  by_cases h1 : curF = []
  · rw [reconcile_of_empty_fresh h1]
  · have hTvalid : ∀ s ∈ T, badStatus s.status = false :=
      reconcile_result_valid hS
    have hTnodup : (entryIds T).Nodup := reconcile_result_nodup hF h1
    by_cases h2 : T = []
    · rw [reconcile_of_empty_old h1 h2]
      have hnil : dropBadLabels curF = [] := by
        refine List.eq_nil_iff_forall_not_mem.2 fun e hmem => ?_
        have hv := valid_of_mem_dropBadLabels hmem
        have heF := (mem_dropBadLabels.1 hmem).1
        have heT : e ∈ T := fresh_valid_mem_reconcile hF heF hv (fun s hs _ => hS s hs)
        rw [h2] at heT
        cases heT
      simp [hnil, h2]
    · have hrej : rejectedIds curF T = [] := by
        rw [rejectedIds, List.map_eq_nil_iff]
        refine List.eq_nil_iff_forall_not_mem.2 fun f hmem => ?_
        have hf := List.mem_filter.1 hmem
        have hfst : f.status = "Rejected" := by
          have := hf.2
          simp only [Bool.and_eq_true, beq_iff_eq] at this
          exact this.1
        have hany : ∃ o ∈ T, o.id = f.id := by
          have := hf.2
          simp only [Bool.and_eq_true, List.any_eq_true, beq_iff_eq] at this
          exact this.2
        rcases hany with ⟨o, hoT, hoid⟩
        have hof : o = f := reconcile_mem_fresh_eq hF hoT hf.1 hoid.symm
        have := hTvalid o hoT
        rw [hof, hfst] at this
        simp [badStatus] at this
      rw [reconcile_main h1 h2, hrej, dropIds_nil, dropIds_nil]
      refine Finset.ext fun x => ?_
      simp only [List.mem_toFinset]
      constructor
      · intro hx
        have hxC := mem_dedupeAux hx
        have hxC' := mem_dropBadLabels.1 hxC
        rcases List.mem_append.1 hxC'.1 with hxF | hxT
        · have hv : badStatus x.status = false := hxC'.2 x hxC'.1 rfl
          exact fresh_valid_mem_reconcile hF hxF hv (fun s hs _ => hS s hs)
        · exact hxT
      · intro hx
        refine mem_dedupe_iff.2 ?_
        refine head?_eq_of_mem_all ?_ ?_
        · refine List.mem_filter.2 ⟨?_, by simp⟩
          refine mem_dropBadLabels.2 ⟨List.mem_append.2 (Or.inr hx), ?_⟩
          intro z hz hzid
          rcases List.mem_append.1 hz with hzF | hzT
          · have hxz : x = z := reconcile_mem_fresh_eq hF hx hzF hzid
            rw [← hxz]
            exact hTvalid x hx
          · exact hTvalid z hzT
        · intro y hy
          have hy1 := List.mem_filter.1 hy
          have hyid : y.id = x.id := by simpa using hy1.2
          have hyM := (mem_dropBadLabels.1 hy1.1).1
          rcases List.mem_append.1 hyM with hyF | hyT
          · exact (reconcile_mem_fresh_eq hF hx hyF hyid).symm
          · exact eq_of_nodup_ids hTnodup hyT hx hyid

/-! ## Claim theorems -/

/-- Claim C1, amended: reconciliation is idempotent — rerunning
`reconcile` with the same fresh batch and the first call's output as the
stored set yields the same record set — provided the fresh batch has
pairwise-distinct ids and every stored record carries a valid status
(two invariants the pipeline maintains: source ids are unique and only
valid-status records are ever persisted).  Without the first proviso
idempotence fails, see the counterexample. -/
theorem reconcile_idempotent (curF old : List Entry)
    (hF : (entryIds curF).Nodup)
    (hS : ∀ s ∈ old, badStatus s.status = false) :
    ((reconcile curF (reconcile curF old).result).result).toFinset =
      ((reconcile curF old).result).toFinset :=
  reconcile_idempotent_aux hF hS

/-- Witness for C1: a concrete fresh batch and stored set satisfying
both hypotheses, on which the theorem applies. -/
theorem reconcile_idempotent_witness :
    (entryIds [mkE "1" "Approved" 3 5400 "331"]).Nodup ∧
    ([mkE "2" "Approved" 4 7200 "320"].all
        (fun s => !badStatus s.status)) = true ∧
    ((reconcile [mkE "1" "Approved" 3 5400 "331"]
        ((reconcile [mkE "1" "Approved" 3 5400 "331"]
            [mkE "2" "Approved" 4 7200 "320"]).result)).result).toFinset =
      ((reconcile [mkE "1" "Approved" 3 5400 "331"]
          [mkE "2" "Approved" 4 7200 "320"]).result).toFinset :=
  ⟨by decide, by decide,
    reconcile_idempotent [mkE "1" "Approved" 3 5400 "331"]
      [mkE "2" "Approved" 4 7200 "320"] (by decide) (by decide)⟩

/-- Counterexample to C1 as stated: with an empty stored set and a fresh
batch holding two records with the same id `"1"` (differing amounts),
the first reconciliation keeps both rows — the stored-empty branch of
`sync_entries` (main.py lines 501-507) never deduplicates — while the
second run's keep-first dedup (line 530) keeps only one, so the second
output differs from the first as a record set. -/
theorem reconcile_idempotent_cex :
    ((reconcile
        [mkE "1" "Approved" 3 5400 "331", mkE "1" "Approved" 3 7200 "331"]
        ((reconcile
            [mkE "1" "Approved" 3 5400 "331", mkE "1" "Approved" 3 7200 "331"]
            []).result)).result).toFinset ≠
      ((reconcile
          [mkE "1" "Approved" 3 5400 "331", mkE "1" "Approved" 3 7200 "331"]
          []).result).toFinset := by decide

/-- Claim C4, confirmed: when the fresh batch filtered to the target
month is empty, reconciliation is a complete no-op.  At the pure level
(main.py line 498-499, `if cur_df.empty: return old_df`) the core
returns EVERY stored set unchanged, with nothing marked rejected; at
the run level the function returns the stored month set, leaves the
store exactly as it was, submits no ids to the store's `delete_many`,
inserts nothing, and attempts no calendar deletion — the early return
happens before any write. -/
theorem sync_entries_empty_fresh_noop (store cur stored : List Entry)
    (td : Date) (h : monthEq td cur = []) :
    (reconcile (monthEq td cur) stored).result = stored ∧
    (reconcile (monthEq td cur) stored).rejected = [] ∧
    sync_entries store cur td =
      ⟨get_month_entries_db store td, store, [], [], []⟩ := by
  refine ⟨?_, ?_, ?_⟩
  · rw [reconcile_of_empty_fresh h]
  · rw [reconcile_of_empty_fresh h]
  · simp [sync_entries, h]

/-- Witness for C4: a nonempty fresh batch whose only record lies in
July 2025, which the June-2025 month filter empties, against a
one-record June store. -/
theorem sync_entries_empty_fresh_noop_witness :
    monthEq td2506 [mkEJul "8" "Approved" 4 3600 "331"] = [] ∧
    ((reconcile (monthEq td2506 [mkEJul "8" "Approved" 4 3600 "331"])
        [mkE "9" "Approved" 3 5400 "331"]).result =
      [mkE "9" "Approved" 3 5400 "331"] ∧
     (reconcile (monthEq td2506 [mkEJul "8" "Approved" 4 3600 "331"])
        [mkE "9" "Approved" 3 5400 "331"]).rejected = [] ∧
     sync_entries [mkE "9" "Approved" 3 5400 "331"]
        [mkEJul "8" "Approved" 4 3600 "331"] td2506 =
       ⟨get_month_entries_db [mkE "9" "Approved" 3 5400 "331"] td2506,
         [mkE "9" "Approved" 3 5400 "331"], [], [], []⟩) :=
  ⟨by decide, sync_entries_empty_fresh_noop
    [mkE "9" "Approved" 3 5400 "331"] [mkEJul "8" "Approved" 4 3600 "331"]
    [mkE "9" "Approved" 3 5400 "331"] td2506 (by decide)⟩

/-- Claim C9, confirmed: the aggregation scenario of the spec.  For a
June-2025 window holding a `331` record of 01:30:00 on day 3 and a `320`
record of 02:00:00 on day 20, the first-half totals are 01:30:00 for
`331`, 00:00:00 for `320` and 01:30:00 overall, and the second-half
totals are 00:00:00 for `331`, 02:00:00 for `320` and 02:00:00
overall. -/
theorem calculate_hours_scenario :
    (calculate_hours [mkE "10" "Approved" 3 5400 "331",
        mkE "11" "Approved" 20 7200 "320"] td2506).1.c331 = "01:30:00" ∧
    (calculate_hours [mkE "10" "Approved" 3 5400 "331",
        mkE "11" "Approved" 20 7200 "320"] td2506).1.c320 = "00:00:00" ∧
    (calculate_hours [mkE "10" "Approved" 3 5400 "331",
        mkE "11" "Approved" 20 7200 "320"] td2506).1.total = "01:30:00" ∧
    (calculate_hours [mkE "10" "Approved" 3 5400 "331",
        mkE "11" "Approved" 20 7200 "320"] td2506).2.1.c331 = "00:00:00" ∧
    (calculate_hours [mkE "10" "Approved" 3 5400 "331",
        mkE "11" "Approved" 20 7200 "320"] td2506).2.1.c320 = "02:00:00" ∧
    (calculate_hours [mkE "10" "Approved" 3 5400 "331",
        mkE "11" "Approved" 20 7200 "320"] td2506).2.1.total = "02:00:00" := by
  decide

theorem mem_get_month_data {df : List Entry} {td : Date} {e : Entry} :
    e ∈ get_month_data df td ↔
      e ∈ df ∧ (monthStart td).key ≤ e.serviceDate.key ∧
        e.serviceDate.key < (nextMonthStart td).key := by
  simp [get_month_data, List.mem_filter, and_assoc]

theorem mem_biweekly_fst {df : List Entry} {td : Date} {e : Entry} :
    e ∈ (get_biweekly_data df td).1 ↔
      e ∈ get_month_data df td ∧
        e.serviceDate.key ≤ (DT.key ⟨td.year, td.month, 15, 0⟩) := by
  simp [get_biweekly_data, List.mem_filter]

theorem mem_biweekly_snd {df : List Entry} {td : Date} {e : Entry} :
    e ∈ (get_biweekly_data df td).2 ↔
      e ∈ get_month_data df td ∧
        (DT.key ⟨td.year, td.month, 16, 0⟩) ≤ e.serviceDate.key := by
  simp [get_biweekly_data, List.mem_filter]

/-- Claim C10, confirmed: the biweekly split partitions the month only
for midnight-normalized service dates.  For a record of the target month
(year/month equal, day in range) whose `Service Date` has a zero time
component, membership in the first half is exactly `day ≤ 15`,
membership in the second half exactly `day ≥ 16`, and the record lies in
exactly one of the two frames; while a `Service Date` carrying a time of
day strictly between day-15 00:00 and day-16 00:00 falls in neither
half (the filters at main.py lines 592-593 compare full timestamps). -/
theorem get_biweekly_partition (df : List Entry) (td : Date) (e : Entry)
    (hmem : e ∈ df)
    (hy : e.serviceDate.year = td.year) (hm : e.serviceDate.month = td.month)
    (hd1 : 1 ≤ e.serviceDate.day) (hd31 : e.serviceDate.day ≤ 31) :
    (e.serviceDate.sec = 0 →
      ((e ∈ (get_biweekly_data df td).1 ↔ e.serviceDate.day ≤ 15) ∧
       (e ∈ (get_biweekly_data df td).2 ↔ 16 ≤ e.serviceDate.day) ∧
       ((e ∈ (get_biweekly_data df td).1 ∧ e ∉ (get_biweekly_data df td).2) ∨
        (e ∉ (get_biweekly_data df td).1 ∧ e ∈ (get_biweekly_data df td).2)))) ∧
    ((DT.key ⟨td.year, td.month, 15, 0⟩ < e.serviceDate.key ∧
      e.serviceDate.key < DT.key ⟨td.year, td.month, 16, 0⟩) →
      (e ∉ (get_biweekly_data df td).1 ∧ e ∉ (get_biweekly_data df td).2)) := by
  have hfst : e ∈ (get_biweekly_data df td).1 ↔
      ((monthStart td).key ≤ e.serviceDate.key ∧
        e.serviceDate.key < (nextMonthStart td).key) ∧
        e.serviceDate.key ≤ DT.key ⟨td.year, td.month, 15, 0⟩ := by
    rw [mem_biweekly_fst, mem_get_month_data]
    simp [hmem, and_assoc]
  have hsnd : e ∈ (get_biweekly_data df td).2 ↔
      ((monthStart td).key ≤ e.serviceDate.key ∧
        e.serviceDate.key < (nextMonthStart td).key) ∧
        DT.key ⟨td.year, td.month, 16, 0⟩ ≤ e.serviceDate.key := by
    rw [mem_biweekly_snd, mem_get_month_data]
    simp [hmem, and_assoc]
  constructor
  · intro hs0
    have hlow : (monthStart td).key ≤ e.serviceDate.key := by
      simp only [monthStart, DT.key, hy, hm, hs0]
      omega
    have hhigh : e.serviceDate.key < (nextMonthStart td).key := by
      simp only [nextMonthStart, DT.key, hy, hm, hs0]
      by_cases h12 : td.month = 12 <;> simp [h12] <;> omega
    have h15iff : e.serviceDate.key ≤ DT.key ⟨td.year, td.month, 15, 0⟩ ↔
        e.serviceDate.day ≤ 15 := by
      simp only [DT.key, hy, hm, hs0]
      omega
    have h16iff : DT.key ⟨td.year, td.month, 16, 0⟩ ≤ e.serviceDate.key ↔
        16 ≤ e.serviceDate.day := by
      simp only [DT.key, hy, hm, hs0]
      omega
    refine ⟨?_, ?_, ?_⟩
    · rw [hfst]
      simp [hlow, hhigh, h15iff]
    · rw [hsnd]
      simp [hlow, hhigh, h16iff]
    · by_cases hday : e.serviceDate.day ≤ 15
      · exact Or.inl ⟨hfst.2 ⟨⟨hlow, hhigh⟩, h15iff.2 hday⟩,
          fun hc => absurd (h16iff.1 (hsnd.1 hc).2) (by omega)⟩
      · have hday16 : 16 ≤ e.serviceDate.day := by omega
        exact Or.inr ⟨fun hc => absurd (h15iff.1 (hfst.1 hc).2) (by omega),
          hsnd.2 ⟨⟨hlow, hhigh⟩, h16iff.2 hday16⟩⟩
  · rintro ⟨hlt15, hlt16⟩
    constructor
    · intro hc
      have hle := (hfst.1 hc).2
      omega
    · intro hc
      have hle := (hsnd.1 hc).2
      omega

/-- Witness for C10: a midnight-normalized day-3 record of the June-2025
window. -/
theorem get_biweekly_partition_witness :
    ((mkE "10" "Approved" 3 5400 "331").serviceDate.sec = 0 →
      ((mkE "10" "Approved" 3 5400 "331" ∈
          (get_biweekly_data [mkE "10" "Approved" 3 5400 "331"] td2506).1 ↔
        (mkE "10" "Approved" 3 5400 "331").serviceDate.day ≤ 15) ∧
       (mkE "10" "Approved" 3 5400 "331" ∈
          (get_biweekly_data [mkE "10" "Approved" 3 5400 "331"] td2506).2 ↔
        16 ≤ (mkE "10" "Approved" 3 5400 "331").serviceDate.day) ∧
       ((mkE "10" "Approved" 3 5400 "331" ∈
           (get_biweekly_data [mkE "10" "Approved" 3 5400 "331"] td2506).1 ∧
         mkE "10" "Approved" 3 5400 "331" ∉
           (get_biweekly_data [mkE "10" "Approved" 3 5400 "331"] td2506).2) ∨
        (mkE "10" "Approved" 3 5400 "331" ∉
           (get_biweekly_data [mkE "10" "Approved" 3 5400 "331"] td2506).1 ∧
         mkE "10" "Approved" 3 5400 "331" ∈
           (get_biweekly_data [mkE "10" "Approved" 3 5400 "331"] td2506).2)))) ∧
    ((DT.key ⟨td2506.year, td2506.month, 15, 0⟩ <
        (mkE "10" "Approved" 3 5400 "331").serviceDate.key ∧
      (mkE "10" "Approved" 3 5400 "331").serviceDate.key <
        DT.key ⟨td2506.year, td2506.month, 16, 0⟩) →
      (mkE "10" "Approved" 3 5400 "331" ∉
         (get_biweekly_data [mkE "10" "Approved" 3 5400 "331"] td2506).1 ∧
       mkE "10" "Approved" 3 5400 "331" ∉
         (get_biweekly_data [mkE "10" "Approved" 3 5400 "331"] td2506).2)) :=
  get_biweekly_partition [mkE "10" "Approved" 3 5400 "331"] td2506
    (mkE "10" "Approved" 3 5400 "331") (by decide) (by decide) (by decide)
    (by decide) (by decide)

theorem sync_entries_eq {store cur : List Entry} {td : Date}
    (h1 : monthEq td cur ≠ []) :
    sync_entries store cur td =
      ⟨(reconcile (monthEq td cur) (get_month_entries_db store td)).result,
        (update_entries store
          (reconcile (monthEq td cur) (get_month_entries_db store td)).result
          (reconcile (monthEq td cur) (get_month_entries_db store td)).rejected).1,
        (reconcile (monthEq td cur) (get_month_entries_db store td)).rejected,
        ((reconcile (monthEq td cur)
            (get_month_entries_db store td)).rejected).filter (fun i => i != ""),
        (update_entries store
          (reconcile (monthEq td cur) (get_month_entries_db store td)).result
          (reconcile (monthEq td cur) (get_month_entries_db store td)).rejected).2⟩ := by
  simp [sync_entries, h1]

theorem result_id_not_rejected {curF old : List Entry} {x : Entry}
    (h1 : curF ≠ []) (h2 : old ≠ [])
    (hx : x ∈ (reconcile curF old).result) :
    x.id ∉ rejectedIds curF old := by
  rw [reconcile_main h1 h2] at hx
  have hxM := (mem_dropBadLabels.1 (mem_dedupeAux hx)).1
  rcases List.mem_append.1 hxM with h' | h'
  · exact (mem_dropIds.1 h').2
  · exact (mem_dropIds.1 h').2

theorem count_rejectedIds {curF old : List Entry} {e : Entry} {i : String}
    (hfil : curF.filter (fun a => a.id == i) = [e])
    (hst : e.status = "Rejected") {o : Entry} (ho : o ∈ old) (hoid : o.id = i) :
    (rejectedIds curF old).count i = 1 := by
  have heid : e.id = i := by
    have : e ∈ curF.filter (fun a => a.id == i) := by rw [hfil]; exact List.mem_singleton_self e
    simpa using (List.mem_filter.1 this).2
  rw [rejectedIds, List.count_eq_countP, List.countP_map, List.countP_eq_length_filter]
  have hswap :
      (curF.filter (fun a =>
          a.status == "Rejected" && old.any (fun z => z.id == a.id))).filter
        (fun a => a.id == i) =
      (curF.filter (fun a => a.id == i)).filter (fun a =>
          a.status == "Rejected" && old.any (fun z => z.id == a.id)) := by
    rw [List.filter_filter, List.filter_filter]
    exact List.filter_congr (fun x _ => by rw [Bool.and_comm])
  have hpe : (e.status == "Rejected" && old.any (fun z => z.id == e.id)) = true := by
    simp only [Bool.and_eq_true, beq_iff_eq, List.any_eq_true]
    exact ⟨hst, o, ho, by rw [hoid, heid]⟩
  calc ((curF.filter (fun a =>
          a.status == "Rejected" && old.any (fun z => z.id == a.id))).filter
            (fun s => (fun x => x == i) (s.id))).length
      = ([e].filter (fun a =>
          a.status == "Rejected" && old.any (fun z => z.id == a.id))).length := by
        rw [show (fun s : Entry => (fun x => x == i) s.id) =
            (fun a : Entry => a.id == i) from rfl, hswap, hfil]
    _ = 1 := by simp [hpe]

theorem update_entries_fst (store df : List Entry) (rejected : List String) :
    (update_entries store df rejected).1 =
      store.filter (fun e => !(rejected.contains e.id)) ++
        df.filter (fun e =>
          !((store.filter (fun s => !(rejected.contains s.id))).any
            (fun s => s.id == e.id))) := rfl

/-- Claim C2, amended: rejection retracts for every truthy (nonempty)
id.  If the stored month set contains id `i`, and the month-filtered
fresh batch contains exactly one record with id `i`, with status
`Rejected`, and `i` is not the empty string, then `i` is absent from the
reconciled output, absent from the store after the run, and exactly one
calendar-deletion is attempted for it. -/
theorem sync_entries_rejection_retracts (store cur : List Entry) (td : Date)
    (i : String) (e : Entry)
    (hfil : (monthEq td cur).filter (fun a => a.id == i) = [e])
    (hst : e.status = "Rejected")
    (hold : i ∈ entryIds (get_month_entries_db store td))
    (hne : i ≠ "") :
    i ∉ entryIds (sync_entries store cur td).result ∧
    i ∉ entryIds (sync_entries store cur td).store ∧
    ((sync_entries store cur td).calendarDeletes).count i = 1 := by
  rcases mem_entryIds.1 hold with ⟨o, ho, hoid⟩
  have heF : e ∈ monthEq td cur := by
    have hmem : e ∈ (monthEq td cur).filter (fun a => a.id == i) := by
      rw [hfil]; exact List.mem_singleton_self e
    exact (List.mem_filter.1 hmem).1
  have heid : e.id = i := by
    have hmem : e ∈ (monthEq td cur).filter (fun a => a.id == i) := by
      rw [hfil]; exact List.mem_singleton_self e
    simpa using (List.mem_filter.1 hmem).2
  have h1 : monthEq td cur ≠ [] := fun h => by rw [h] at heF; cases heF
  have h2 : get_month_entries_db store td ≠ [] := fun h => by
    rw [h] at ho; cases ho
  have hiR : i ∈ rejectedIds (monthEq td cur) (get_month_entries_db store td) :=
    mem_rejectedIds.2 ⟨e, heF, heid, hst, o, ho, hoid⟩
  have hres : (sync_entries store cur td).result =
      (reconcile (monthEq td cur) (get_month_entries_db store td)).result := by
    simp [sync_entries, h1]
  have hstore : (sync_entries store cur td).store =
      (update_entries store
        (reconcile (monthEq td cur) (get_month_entries_db store td)).result
        (reconcile (monthEq td cur) (get_month_entries_db store td)).rejected).1 := by
    simp [sync_entries, h1]
  have hcal : (sync_entries store cur td).calendarDeletes =
      ((reconcile (monthEq td cur)
          (get_month_entries_db store td)).rejected).filter (fun s => s != "") := by
    simp [sync_entries, h1]
  have hrej : (reconcile (monthEq td cur)
      (get_month_entries_db store td)).rejected =
        rejectedIds (monthEq td cur) (get_month_entries_db store td) := by
    rw [reconcile_main h1 h2]
  refine ⟨?_, ?_, ?_⟩
  · rw [hres]
    intro hc
    rcases mem_entryIds.1 hc with ⟨x, hx, hxid⟩
    exact (result_id_not_rejected h1 h2 hx) (hxid ▸ hiR)
  · rw [hstore, update_entries_fst, hrej]
    intro hc
    rcases mem_entryIds.1 hc with ⟨x, hx, hxid⟩
    rcases List.mem_append.1 hx with hs | hn
    · have hxr := (List.mem_filter.1 hs).2
      rw [hxid] at hxr
      simp only [Bool.not_eq_true', ← Bool.not_eq_true] at hxr
      exact absurd (by simpa [List.elem_iff] using hiR) (by simpa using hxr)
    · have hxres := (List.mem_filter.1 hn).1
      exact (result_id_not_rejected h1 h2 hxres) (hxid ▸ hiR)
  · rw [hcal, hrej, List.count_filter (by simp [hne])]
    exact count_rejectedIds hfil hst ho hoid

/-- Witness for C2: a stored approved record with id `"5"` rejected by
the fresh scrape is removed everywhere and gets one deletion attempt. -/
theorem sync_entries_rejection_retracts_witness :
    ((monthEq td2506 [mkE "5" "Rejected" 3 5400 "331"]).filter
        (fun a => a.id == "5") = [mkE "5" "Rejected" 3 5400 "331"]) ∧
    "5" ∈ entryIds
        (get_month_entries_db [mkE "5" "Approved" 3 5400 "331"] td2506) ∧
    ("5" ∉ entryIds (sync_entries [mkE "5" "Approved" 3 5400 "331"]
        [mkE "5" "Rejected" 3 5400 "331"] td2506).result ∧
     "5" ∉ entryIds (sync_entries [mkE "5" "Approved" 3 5400 "331"]
        [mkE "5" "Rejected" 3 5400 "331"] td2506).store ∧
     ((sync_entries [mkE "5" "Approved" 3 5400 "331"]
        [mkE "5" "Rejected" 3 5400 "331"] td2506).calendarDeletes).count "5"
       = 1) :=
  ⟨by decide, by decide,
    sync_entries_rejection_retracts [mkE "5" "Approved" 3 5400 "331"]
      [mkE "5" "Rejected" 3 5400 "331"] td2506 "5"
      (mkE "5" "Rejected" 3 5400 "331") (by decide) (by decide) (by decide)
      (by decide)⟩

/-- Counterexample to C2 as stated: for the empty-string (falsy) id —
ids are index labels scraped as strings — the record is retracted from
output and store, but `delete_calendar_event` returns without attempting
any deletion (`if entry_id:` at main.py line 753), so zero deletion
attempts happen instead of exactly one. -/
theorem sync_entries_rejection_empty_id_cex :
    ((monthEq td2506 [mkE "" "Rejected" 3 5400 "331"]).filter
        (fun a => a.id == "") = [mkE "" "Rejected" 3 5400 "331"]) ∧
    "" ∈ entryIds
        (get_month_entries_db [mkE "" "Approved" 3 5400 "331"] td2506) ∧
    ((sync_entries [mkE "" "Approved" 3 5400 "331"]
        [mkE "" "Rejected" 3 5400 "331"] td2506).calendarDeletes).count ""
      = 0 := by
  decide

theorem entryIds_filter_sublist (p : Entry → Bool) (l : List Entry) :
    List.Sublist (entryIds (l.filter p)) (entryIds l) := by
  simp only [entryIds]
  exact List.Sublist.map (fun e => e.id) (List.filter_sublist l)

/-- Claim C3, amended: no two records of the reconciled output share an
id, provided the store has pairwise-distinct ids (guaranteed by the
MongoDB `_id` key) and — in the one branch with no dedup step, when the
stored month set is empty — the month-filtered fresh batch itself has
pairwise-distinct ids.  With a duplicated fresh id against an empty
store the output does contain a duplicate, see the counterexample. -/
theorem sync_entries_nodup_ids (store cur : List Entry) (td : Date)
    (hstore : (entryIds store).Nodup)
    (hF : get_month_entries_db store td = [] →
      (entryIds (monthEq td cur)).Nodup) :
    (entryIds (sync_entries store cur td).result).Nodup := by
  by_cases h1 : monthEq td cur = []
  · have hres : (sync_entries store cur td).result =
        get_month_entries_db store td := by
      simp [sync_entries, h1]
    rw [hres, get_month_entries_db]
    exact (entryIds_filter_sublist _ store).nodup hstore
  · have hres : (sync_entries store cur td).result =
        (reconcile (monthEq td cur) (get_month_entries_db store td)).result := by
      simp [sync_entries, h1]
    rw [hres]
    by_cases h2 : get_month_entries_db store td = []
    · rw [reconcile_of_empty_old h1 h2, dropBadLabels]
      exact (entryIds_filter_sublist _ _).nodup (hF h2)
    · rw [reconcile_main h1 h2]
      exact (dedupeAux_ids_nodup _ []).1

/-- Witness for C3: one fresh approved record against a one-record
store. -/
theorem sync_entries_nodup_ids_witness :
    (entryIds [mkE "2" "Approved" 4 7200 "320"]).Nodup ∧
    (entryIds (sync_entries [mkE "2" "Approved" 4 7200 "320"]
        [mkE "1" "Approved" 3 5400 "331"] td2506).result).Nodup :=
  ⟨by decide, sync_entries_nodup_ids [mkE "2" "Approved" 4 7200 "320"]
    [mkE "1" "Approved" 3 5400 "331"] td2506 (by decide) (fun _ => by decide)⟩

/-- Counterexample to C3 as stated: with an empty store and a fresh
batch containing two approved records with the same id, the stored-empty
branch (main.py lines 501-507) returns the batch without deduplication,
so the reconciled output carries a duplicate id. -/
theorem sync_entries_dup_ids_cex :
    ¬ (entryIds (sync_entries [] [mkE "1" "Approved" 3 5400 "331",
        mkE "1" "Approved" 3 7200 "331"] td2506).result).Nodup := by
  decide

/-- Fresh wins at a single label: if the fresh batch contains exactly
one record with the given id (duplicate labels elsewhere in the batch
are allowed — the keep-first dedup of main.py line 530 handles them),
that record has a valid status, the stored set is nonempty, and every
stored record with that id has a valid status, then the reconciled
set's record for that id is exactly the fresh one. -/
theorem reconcile_fresh_wins_unique {curF old : List Entry} {e : Entry}
    (hfil : curF.filter (fun a => a.id == e.id) = [e])
    (hv : badStatus e.status = false)
    (h2 : old ≠ [])
    (hSvalid : ∀ s ∈ old, s.id = e.id → badStatus s.status = false) :
    (reconcile curF old).result.filter (fun r => r.id == e.id) = [e] := by
  have heF : e ∈ curF := by
    have hmem : e ∈ curF.filter (fun a => a.id == e.id) := by
      rw [hfil]; exact List.mem_singleton_self e
    exact (List.mem_filter.1 hmem).1
  have huniq : ∀ y ∈ curF, y.id = e.id → y = e := by
    intro y hy hyid
    have hmem : y ∈ curF.filter (fun a => a.id == e.id) :=
      List.mem_filter.2 ⟨hy, by simp [hyid]⟩
    rw [hfil] at hmem
    simpa using hmem
  have h1 : curF ≠ [] := fun h => by rw [h] at heF; cases heF
  rw [reconcile_main h1 h2]
  set R := rejectedIds curF old with hR
  have hnr : e.id ∉ R := by
    intro hcon
    rcases mem_rejectedIds.1 hcon with ⟨f, hf, hfid, hfst, _⟩
    have hfe : f = e := huniq f hf hfid
    rw [hfe] at hfst
    simp [badStatus, hfst] at hv
  have hMsame : ∀ y ∈ dropIds R curF ++ dropIds R old, y.id = e.id →
      badStatus y.status = false := by
    intro y hy hid
    rcases List.mem_append.1 hy with hy' | hy'
    · have hye : y = e := huniq y (mem_dropIds.1 hy').1 hid
      rw [hye]; exact hv
    · exact hSvalid y (mem_dropIds.1 hy').1 hid
  set p := fun y : Entry =>
    !((dropIds R curF ++ dropIds R old).any
      (fun z => z.id == y.id && badStatus z.status)) with hp
  have hpe : p e = true := by
    have hany := any_bad_eq_false hMsame
    show (!((dropIds R curF ++ dropIds R old).any
      (fun z => z.id == e.id && badStatus z.status))) = true
    rw [hany]
    rfl
  have hsplit : dropBadLabels (dropIds R curF ++ dropIds R old) =
      (dropIds R curF).filter p ++ (dropIds R old).filter p := by
    rw [dropBadLabels, List.filter_append]
  show ((dedupeAux [] (dropBadLabels
      (dropIds R curF ++ dropIds R old))).filter
    (fun r => r.id == e.id)) = [e]
  rw [dedupeAux_filter, if_neg (List.not_mem_nil e.id), hsplit,
    List.filter_append]
  have hAfq : ((dropIds R curF).filter p).filter (fun a => a.id == e.id)
      = [e] := by
    have hstep : ((dropIds R curF).filter p).filter (fun a => a.id == e.id) =
        (curF.filter (fun a => a.id == e.id)).filter
          (fun x => (!(R.contains x.id)) && p x) := by
      simp only [dropIds, List.filter_filter]
      refine List.filter_congr (fun x _ => ?_)
      cases hq : (x.id == e.id) <;> cases hpp : p x <;>
        cases hrr : R.contains x.id <;> simp [hq, hpp, hrr]
    rw [hstep, hfil]
    simp
    exact ⟨hnr, hpe⟩
  rw [hAfq]
  rfl

/-- Claim C5, amended: fresh wins over stored.  If id `X` occurs in the
month-filtered fresh batch exactly once, with a valid status, and is
present in the stored month set where every record carrying `X` has a
valid status, then the reconciled output's record for `X` is exactly
the fresh version, whatever the other field values — duplicate labels
at OTHER ids in the batch are allowed.  (Without the stored-status
proviso both versions are dropped, see the counterexample.) -/
theorem sync_entries_fresh_wins (store cur : List Entry) (td : Date)
    (e : Entry)
    (hfil : (monthEq td cur).filter (fun a => a.id == e.id) = [e])
    (hv : badStatus e.status = false)
    (hs : e.id ∈ entryIds (get_month_entries_db store td))
    (hSvalid : ∀ s ∈ get_month_entries_db store td, s.id = e.id →
      badStatus s.status = false) :
    (sync_entries store cur td).result.filter (fun r => r.id == e.id)
      = [e] := by
  have heF : e ∈ monthEq td cur := by
    have hmem : e ∈ (monthEq td cur).filter (fun a => a.id == e.id) := by
      rw [hfil]; exact List.mem_singleton_self e
    exact (List.mem_filter.1 hmem).1
  have h1 : monthEq td cur ≠ [] := fun h => by rw [h] at heF; cases heF
  rcases mem_entryIds.1 hs with ⟨o, ho, hoid⟩
  have h2 : get_month_entries_db store td ≠ [] := fun h => by
    rw [h] at ho; cases ho
  have hres : (sync_entries store cur td).result =
      (reconcile (monthEq td cur) (get_month_entries_db store td)).result := by
    simp [sync_entries, h1]
  rw [hres]
  exact reconcile_fresh_wins_unique hfil hv h2 hSvalid

/-- Witness for C5: id `"7"` approved in fresh with amount 5400 and
approved in the store with amount 3600; the fresh batch also carries a
duplicated label `"4"` (allowed by the amended claim); the output keeps
the fresh `"7"` record. -/
theorem sync_entries_fresh_wins_witness :
    ((monthEq td2506 [mkE "7" "Approved" 3 5400 "331",
        mkE "4" "Approved" 5 3600 "320",
        mkE "4" "Approved" 5 7200 "320"]).filter
        (fun a => a.id == (mkE "7" "Approved" 3 5400 "331").id) =
      [mkE "7" "Approved" 3 5400 "331"]) ∧
    "7" ∈ entryIds
      (get_month_entries_db [mkE "7" "Approved" 3 3600 "331"] td2506) ∧
    (sync_entries [mkE "7" "Approved" 3 3600 "331"]
        [mkE "7" "Approved" 3 5400 "331",
         mkE "4" "Approved" 5 3600 "320",
         mkE "4" "Approved" 5 7200 "320"] td2506).result.filter
      (fun r => r.id == (mkE "7" "Approved" 3 5400 "331").id) =
      [mkE "7" "Approved" 3 5400 "331"] :=
  ⟨by decide, by decide,
    sync_entries_fresh_wins [mkE "7" "Approved" 3 3600 "331"]
      [mkE "7" "Approved" 3 5400 "331",
       mkE "4" "Approved" 5 3600 "320",
       mkE "4" "Approved" 5 7200 "320"] td2506
      (mkE "7" "Approved" 3 5400 "331") (by decide) (by decide) (by decide)
      (by decide)⟩

/-- Counterexample to C5 as stated: id `"7"` exists in fresh with the
valid status `Approved` and in the store with the (differing) status
`Unvalidated`; the label-wise status drop at main.py lines 526-527
removes BOTH rows, so the reconciled output holds no record for `"7"` at
all — the fresh version does not win. -/
theorem sync_entries_fresh_wins_cex :
    (monthEq td2506 [mkE "7" "Approved" 3 5400 "331"] =
      [mkE "7" "Approved" 3 5400 "331"]) ∧
    badStatus (mkE "7" "Approved" 3 5400 "331").status = false ∧
    "7" ∈ entryIds
      (get_month_entries_db [mkE "7" "Unvalidated" 3 3600 "331"] td2506) ∧
    (sync_entries [mkE "7" "Unvalidated" 3 3600 "331"]
        [mkE "7" "Approved" 3 5400 "331"] td2506).result = [] := by
  decide

theorem mapM_loop_none {α β : Type} (f : α → Option β) {a : α}
    (hf : f a = none) :
    ∀ (l : List α), a ∈ l → ∀ acc, List.mapM.loop f l acc = none := by
  intro l
  induction l with
  | nil => intro ha; cases ha
  | cons x xs ih =>
      intro ha acc
      rcases List.mem_cons.1 ha with rfl | h'
      · simp [List.mapM.loop, hf]
      · cases hfx : f x
        · simp [List.mapM.loop, hfx]
        · simpa [List.mapM.loop, hfx] using ih h' _

theorem mapM_none_of_mem {α β : Type} {f : α → Option β} {l : List α} {a : α}
    (ha : a ∈ l) (hf : f a = none) : l.mapM f = none :=
  mapM_loop_none f hf l ha []

/-- Claim C6, amended: a normalization batch containing ANY row that
survives the `Open`-label drop of line 268 (no row sharing its `Id` has
status `Open`) and whose date, time or amount cell fails to parse under
the fixed formats produces no DataFrame at all —
`pd.to_datetime`/`pd.to_timedelta` with the default `errors='raise'`
abort the whole batch (main.py lines 277-299), so the failure is
batch-fatal rather than isolated to the offending row. -/
theorem to_dataframe_row_failure_fatal (header : List String)
    (data : List (List String)) (emp : String) (cs : Cols) (r : List String)
    (hcols : getCols header = some cs)
    (hr : r ∈ data)
    (hopen : ∀ r2 ∈ data, cell r2 cs.idIdx = cell r cs.idIdx →
      cell r2 cs.statusIdx ≠ "Open")
    (hfail : parseRow cs emp r = none) :
    to_dataframe header data emp = none := by
  rw [to_dataframe, hcols]
  show (data.filter (fun r =>
      !(data.any (fun r2 => cell r2 cs.idIdx == cell r cs.idIdx &&
          cell r2 cs.statusIdx == "Open")))).mapM (parseRow cs emp) = none
  refine mapM_none_of_mem (List.mem_filter.2 ⟨hr, ?_⟩) hfail
  have hany : (data.any (fun r2 => cell r2 cs.idIdx == cell r cs.idIdx &&
      cell r2 cs.statusIdx == "Open")) = false := by
    rw [List.any_eq_false]
    intro r2 hr2
    by_cases hid : cell r2 cs.idIdx = cell r cs.idIdx
    · simp [hid, hopen r2 hr2 hid]
    · simp [hid]
  rw [hany]
  rfl

/-- Witness for C6 (amended): the two-row batch with one malformed date
is rejected whole. -/
theorem to_dataframe_row_failure_fatal_witness :
    getCols rawHeader = some ⟨0, 1, 2, 3, 4, 5, 6⟩ ∧
    badRow ∈ [goodRow, badRow] ∧
    ([goodRow, badRow].all (fun r2 =>
      !(cell r2 0 == cell badRow 0 && cell r2 1 == "Open"))) = true ∧
    parseRow ⟨0, 1, 2, 3, 4, 5, 6⟩ "Jesus" badRow = none ∧
    to_dataframe rawHeader [goodRow, badRow] "Jesus" = none :=
  ⟨by decide, by decide, by decide, by decide,
    to_dataframe_row_failure_fatal rawHeader [goodRow, badRow] "Jesus"
      ⟨0, 1, 2, 3, 4, 5, 6⟩ badRow (by decide) (by decide) (by decide)
      (by decide)⟩

/-- Counterexample to C6 as stated: the well-formed row `goodRow` alone
normalizes fine, but the batch `[goodRow, badRow]` — where only
`badRow`'s service date fails the `'%b %d, %Y'` format — yields NO
records at all, instead of dropping only the bad row and keeping the
good one. -/
theorem to_dataframe_isolation_cex :
    (to_dataframe rawHeader [goodRow] "Jesus").isSome = true ∧
    to_dataframe rawHeader [badRow] "Jesus" = none ∧
    to_dataframe rawHeader [goodRow, badRow] "Jesus" = none := by
  decide

theorem isOk_ite_ok {ε α : Type} (c : Prop) [Decidable c] (a b : α) :
    (if c then (Except.ok a : Except ε α) else Except.ok b).isOk = true := by
  split <;> rfl

/-- Claim C7, amended: only a store CONNECTION failure is fatal.  The
client creation/ping happens outside every `try` (main.py lines 339,
413), so a ping failure propagates to the caller and aborts the run;
but a failure of the month query, of the delete, or of the insert is
caught and swallowed by the `except` blocks (lines 386-388, 458-459):
the run completes normally — the failed load acts as an empty month and
the failed update leaves the store partially or wholly unchanged.
Hence the run aborts exactly when the ping fails. -/
theorem sync_entries_f_fatal_iff_ping (b : StoreFaults)
    (store cur : List Entry) (td : Date) :
    (sync_entries_f b store cur td).isOk = !b.pingFails := by
  obtain ⟨p, fl, dl, il⟩ := b
  cases p <;> cases fl <;> cases dl <;> cases il <;>
    simp only [sync_entries_f, get_month_entries_db_f, update_entries_f,
      Bool.not_true, Bool.not_false, if_true, if_false, bind, Except.bind] <;>
    first
      | rfl
      | exact isOk_ite_ok _ _ _

/-- Counterexample to C7 as stated: with the month query failing (and
the connection fine), `sync_entries` completes successfully — the
exception is printed and swallowed at main.py lines 386-388, the load is
treated as an empty month, and reconciliation reports completion — the
error does not propagate to the caller. -/
theorem sync_entries_f_swallows_find_failure_cex :
    (sync_entries_f ⟨false, true, false, false⟩
      [mkE "5" "Approved" 3 5400 "331"] [mkE "5" "Rejected" 3 5400 "331"]
      td2506).isOk = true := by
  decide

theorem event_exists_iff_overlap {cal : List CalEvent} {s e : DT} :
    event_exists cal s e = true ↔
      ∃ ev ∈ cal, ev.start.key < e.key ∧ s.key < ev.stop.key := by
  simp [event_exists, listEvents, List.length_pos, List.mem_filter,
    List.eq_nil_iff_forall_not_mem]

/-- Claim C8, amended: the projector skips a record exactly when the
calendar holds an event OVERLAPPING the record's open interval.  The
`events().list(timeMin=start, timeMax=end)` call of `event_exists`
returns every event with `start < timeMax` and `end > timeMin`
(the documented Google Calendar bounds), so an exactly-equal event is
skipped as a special case of overlap, but a merely-overlapping event
suppresses creation just the same — creation is skipped iff some
existing event overlaps `(startTime, endTime)`. -/
theorem process_punch_skip_iff_overlap (cal : List CalEvent) (e : Entry)
    (td : Date)
    (hin : (monthStart td).key ≤ e.serviceDate.key ∧
      e.serviceDate.key < (nextMonthStart td).key) :
    ((process_punch_data cal [e] td).2 = [] ↔
      ∃ ev ∈ cal, ev.start.key < e.endTime.key ∧
        e.startTime.key < ev.stop.key) := by
  have hmem : get_month_data [e] td = [e] := by
    simp [get_month_data, hin.1, hin.2]
  rw [process_punch_data, hmem]
  by_cases hex : event_exists cal e.startTime e.endTime = true
  · simp only [List.foldl_cons, List.foldl_nil, hex, if_true]
    constructor
    · intro _
      exact event_exists_iff_overlap.1 hex
    · intro _
      trivial
  · have hnov : ¬ ∃ ev ∈ cal, ev.start.key < e.endTime.key ∧
        e.startTime.key < ev.stop.key :=
      fun hov => hex (event_exists_iff_overlap.2 hov)
    simp only [List.foldl_cons, List.foldl_nil, hex, if_false]
    simp [hnov]

/-- Witness for C8 (amended): a calendar holding one event strictly
inside the record's interval; the iff instantiates with the overlap
present, so no event is created. -/
theorem process_punch_skip_iff_overlap_witness :
    ((monthStart td2506).key ≤
        (mkE "20" "Approved" 3 7200 "331").serviceDate.key ∧
      (mkE "20" "Approved" 3 7200 "331").serviceDate.key <
        (nextMonthStart td2506).key) ∧
    ((process_punch_data [(⟨⟨2025, 6, 3, 5400⟩, ⟨2025, 6, 3, 9000⟩⟩ : CalEvent)]
        [mkE "20" "Approved" 3 7200 "331"] td2506).2 = [] ↔
      ∃ ev ∈ [(⟨⟨2025, 6, 3, 5400⟩, ⟨2025, 6, 3, 9000⟩⟩ : CalEvent)],
        ev.start.key < (mkE "20" "Approved" 3 7200 "331").endTime.key ∧
          (mkE "20" "Approved" 3 7200 "331").startTime.key < ev.stop.key) :=
  ⟨by decide, process_punch_skip_iff_overlap
    [(⟨⟨2025, 6, 3, 5400⟩, ⟨2025, 6, 3, 9000⟩⟩ : CalEvent)]
    (mkE "20" "Approved" 3 7200 "331") td2506 (by decide)⟩

/-- Counterexample to C8 as stated: the calendar holds one event
`[day-3 01:30, day-3 02:30)` strictly inside the record's interval
`[day-3 01:00, day-3 03:00)` — no existing event's interval EQUALS the
record's — yet the projector creates nothing for the record, because
the list call returns the overlapping event and `event_exists` only
counts results. -/
theorem event_exists_overlap_cex :
    (process_punch_data [(⟨⟨2025, 6, 3, 5400⟩, ⟨2025, 6, 3, 9000⟩⟩ : CalEvent)]
        [mkE "20" "Approved" 3 7200 "331"] td2506).2 = [] ∧
    ([(⟨⟨2025, 6, 3, 5400⟩, ⟨2025, 6, 3, 9000⟩⟩ : CalEvent)].all
      (fun ev =>
        !(ev.start == (mkE "20" "Approved" 3 7200 "331").startTime &&
          ev.stop == (mkE "20" "Approved" 3 7200 "331").endTime))) = true := by
  decide
